import Mathlib

/-!
Verification development for the Neural-Image-API repository.

The file shallowly embeds the numeric core of the repository in Lean:
the `Matrix` class (src/neural/math/Matrix.ts), the `DenseLayer`,
`InputLayer` and `ConvolutionalLayer` classes (src/neural/layers/),
the `LayerFactory`, the `SequentialModel` loss selection, `BaseModel.load`,
the `CrossEntropy` loss and the `Softmax` activation.

Numbers are embedded as rationals (`ℚ`), the exact-arithmetic idealization
of the JavaScript IEEE doubles the code computes with.  Transcendental
functions (`Math.exp`, `Math.log`, `Math.sqrt`, `Math.random`) are taken as
abstract function parameters, so theorems quantify over them.  A separate
model of binary64 rounding (`fl`) is used where a claim is specifically
about IEEE double semantics.  Fallible code is embedded with `Except`.
-/

/-- Error kinds raised by the embedded code, mirroring the `throw new Error`
sites of the source (messages are abstracted to constructors). -/
inductive NNError where
  | shapeMismatch : NNError
  | indexOutOfRange : NNError
  | stateError : NNError
  | layerNotInitialized : NNError
  | invalidWeights : NNError
  | unsupportedOperation : NNError
  | validationError : NNError
  | unknownType : NNError
deriving DecidableEq

/-- Activation types, from `core/types/ActivationType.ts`. -/
inductive ActivationTypeE where
  | sigmoid : ActivationTypeE
  | relu : ActivationTypeE
  | tanh : ActivationTypeE
  | softmax : ActivationTypeE
  | linear : ActivationTypeE
deriving DecidableEq

/-- Layer types, from the `LayerType` enum in `LayerFactory`. -/
inductive LayerTypeE where
  | input : LayerTypeE
  | dense : LayerTypeE
  | convolutional : LayerTypeE
  | pooling : LayerTypeE
deriving DecidableEq

/-- Which loss function a model's train/evaluate uses. -/
inductive LossKind where
  | crossEntropy : LossKind
  | mse : LossKind
deriving DecidableEq

/-- Fixed-shape rational matrix: the exact-arithmetic embedding of the
source's `Matrix` class (invariant: every row has length `cols`). -/
abbrev Mat (r c : ℕ) := Matrix (Fin r) (Fin c) ℚ

/-- Embeds `Matrix.add`: element-wise sum (shapes enforced by the type,
where the source throws on a dimension mismatch). -/
def matAdd {r c : ℕ} (A B : Mat r c) : Mat r c := fun i j => A i j + B i j

/-- Embeds `Matrix.subtract`: element-wise difference. -/
def matSub {r c : ℕ} (A B : Mat r c) : Mat r c := fun i j => A i j - B i j

/-- Embeds `Matrix.multiply`: matrix product, the inner loop summing
`this.data[i][k] * matrix.data[k][j]` over `k`. -/
def matMulQ {r c p : ℕ} (A : Mat r c) (B : Mat c p) : Mat r p :=
  fun i j => ∑ k, A i k * B k j

/-- Embeds `Matrix.hadamardProduct`: element-wise product. -/
def matHadamard {r c : ℕ} (A B : Mat r c) : Mat r c := fun i j => A i j * B i j

/-- Embeds `Matrix.transpose`. -/
def matTranspose {r c : ℕ} (A : Mat r c) : Mat c r := fun j i => A i j

/-- Embeds `Matrix.multiplyScalar`. -/
def matScalarMul {r c : ℕ} (s : ℚ) (A : Mat r c) : Mat r c := fun i j => A i j * s

/-- Semantics of an activation object's `forwardMatrix`/`backwardMatrix`
methods (an `IActivation` as used by `DenseLayer`), abstract over shapes. -/
structure MatActSem where
  fwdM : ∀ {r c : ℕ}, Mat r c → Mat r c
  bwdM : ∀ {r c : ℕ}, Mat r c → Mat r c

/-- The `LINEAR` case of `ActivationFactory.create`: `forwardMatrix` copies
the rows unchanged, `backwardMatrix` maps every entry to `1`. -/
def linearMatSem : MatActSem where
  fwdM := fun M => M
  bwdM := fun _ => fun _ _ => 1

/-- State of a `DenseLayer` with `inputShape = [n]`, `outputShape = [m]`:
the four nullable fields `weights`, `biases`, `input`, `output` plus the
activation type held by `BaseLayer`.  Cached `input`/`output` record their
batch size. -/
structure DenseState (n m : ℕ) where
  activation : Option ActivationTypeE
  weights : Option (Mat n m)
  biases : Option (Mat 1 m)
  input : Option ((b : ℕ) × Mat b n)
  output : Option ((b : ℕ) × Mat b m)

/-- Embeds the `DenseLayer` constructor: all nullable fields start `null`. -/
def denseConstruct (n m : ℕ) (act : Option ActivationTypeE) : DenseState n m :=
  ⟨act, none, none, none, none⟩

/-- Embeds `DenseLayer.initialize`: `weights = Matrix.random(n, m, -σ, σ)`
with `σ = sqrt(2/(n+m))` and zero `biases`.  `sqrtf` interprets `Math.sqrt`
and `rand i j ∈ [0,1)` the `Math.random()` draw used for entry `(i,j)`. -/
def denseInit {n m : ℕ} (sqrtf : ℚ → ℚ) (rand : ℕ → ℕ → ℚ)
    (s : DenseState n m) : DenseState n m :=
  { s with
    weights := some (fun i j =>
      -(sqrtf (2 / ((n : ℚ) + (m : ℚ)))) +
        rand i.val j.val * (sqrtf (2 / ((n : ℚ) + (m : ℚ))) - -(sqrtf (2 / ((n : ℚ) + (m : ℚ)))))),
    biases := some (fun _ _ => 0) }

/-- Embeds `DenseLayer.forward`.  Throws `Layer not initialized` when
`weights` or `biases` is `null`; otherwise caches the input, computes
`input·weights + biases` (biases broadcast per row), applies the
activation's `forwardMatrix` if present, caches and returns the output.
`interp` gives each activation type its matrix semantics. -/
def denseForward {n m : ℕ} (interp : ActivationTypeE → MatActSem)
    (s : DenseState n m) {b : ℕ} (input : Mat b n) :
    Except NNError (Mat b m × DenseState n m) :=
  match s.weights, s.biases with
  | some W, some B =>
      let pre : Mat b m := fun i j => matMulQ input W i j + B 0 j
      let out : Mat b m :=
        match s.activation with
        | some t => (interp t).fwdM pre
        | none => pre
      .ok (out, { s with input := some ⟨b, input⟩, output := some ⟨b, out⟩ })
  | _, _ => .error .layerNotInitialized

/-- Embeds `DenseLayer.backward`.  Throws a StateError when any of
`weights`, `biases`, `input`, `output` is `null`.  Otherwise: multiplies the
incoming gradient by the activation derivative at the cached output
(hadamard), computes `weightsGradient = inputᵀ·gradient` and
`biasesGradient = columnSums(gradient)`, reassigns
`weights := weights - lr·weightsGradient` and
`biases := biases - lr·biasesGradient`, and returns
`gradient·weightsᵀ` computed from the just-reassigned `this.weights`.
A batch-size mismatch between the caches and the gradient surfaces as the
ShapeMismatch the source's matrix operations would throw. -/
def denseBackward {n m : ℕ} (interp : ActivationTypeE → MatActSem)
    (s : DenseState n m) {b : ℕ} (outputGradient : Mat b m) (lr : ℚ) :
    Except NNError (Mat b n × DenseState n m) :=
  match s.weights, s.biases, s.input, s.output with
  | some W, some B, some ⟨b₁, X⟩, some ⟨b₂, Y⟩ =>
      if h₁ : b₁ = b then
        if h₂ : b₂ = b then
          let g : Mat b m :=
            match s.activation with
            | some t => matHadamard outputGradient ((interp t).bwdM (h₂ ▸ Y))
            | none => outputGradient
          let weightsGradient : Mat n m := matMulQ (matTranspose (h₁ ▸ X)) g
          let biasesGradient : Mat 1 m := fun _ j => ∑ i, g i j
          let W' : Mat n m := matSub W (matScalarMul lr weightsGradient)
          let B' : Mat 1 m := matSub B (matScalarMul lr biasesGradient)
          let inputGradient : Mat b n := matMulQ g (matTranspose W')
          .ok (inputGradient, { s with weights := some W', biases := some B' })
        else .error .shapeMismatch
      else .error .shapeMismatch
  | _, _, _, _ => .error .stateError

/-- Embeds `InputLayer.backward`: the body is `return outputGradient`; it
performs no state check at all, so it never fails.  The `Except` wrapper
makes the absence of an error visible in the layer interface. -/
def inputLayerBackward (outputGradient : List (List ℚ)) (_lr : ℚ) :
    Except NNError (List (List ℚ)) :=
  .ok outputGradient

/-- Three-dimensional volume `[height][width][channels]` used by the
convolutional layer. -/
abbrev Volume := List (List (List ℚ))

/-- Reads `volume[i][j][c]` (out-of-range reads default to `0`; the source
would throw, and all in-spec uses stay in range). -/
def get3 (v : Volume) (i j c : ℕ) : ℚ := ((v.getD i []).getD j []).getD c 0

/-- Embeds the row-major flat-row-to-volume reshape loops of
`ConvolutionalLayer.forward`/`backward`: `image[i][j][c] = row[idx++]`. -/
def reshapeRowToVolume (row : List ℚ) (h w c : ℕ) : Volume :=
  (List.range h).map (fun i =>
    (List.range w).map (fun j =>
      (List.range c).map (fun ch => row.getD ((i * w + j) * c + ch) 0)))

/-- State of the `ConvolutionalLayer` class of `src/neural/layers/`
(square kernel, numeric padding; each filter a flattened
`kernelSize²·inputChannels × 1` column stored as a list). -/
structure ConvState where
  inputShape : List ℕ
  outputShape : List ℕ
  kernelSize : ℕ
  stride : ℕ
  padding : ℕ
  inputChannels : ℕ
  outputChannels : ℕ
  activation : Option ActivationTypeE
  filters : List (List ℚ)
  biases : List ℚ
  input : Option (List Volume)
  output : Option (List Volume)

/-- Embeds the `ConvolutionalLayer` constructor: output spatial size is
`floor((in + 2·padding - kernel)/stride) + 1` (computed with floor division
over ℤ, clamped at `0` where the source would produce a negative size);
`inputChannels = inputShape[2] || 1`; `filters`/`biases` start empty —
the constructor does not initialize parameters. -/
def convConstruct (inputShape : List ℕ) (kernelSize filters stride padding : ℕ)
    (act : Option ActivationTypeE) : ConvState :=
  let h := inputShape.getD 0 0
  let w := inputShape.getD 1 0
  let chRaw := inputShape.getD 2 0
  let ch := if chRaw = 0 then 1 else chRaw
  let outH := (((h : ℤ) + 2 * padding - kernelSize).fdiv (stride : ℤ) + 1).toNat
  let outW := (((w : ℤ) + 2 * padding - kernelSize).fdiv (stride : ℤ) + 1).toNat
  { inputShape := inputShape
    outputShape := [outH, outW, filters]
    kernelSize := kernelSize
    stride := stride
    padding := padding
    inputChannels := ch
    outputChannels := filters
    activation := act
    filters := []
    biases := []
    input := none
    output := none }

/-- Embeds `ConvolutionalLayer.initialize`: pushes `outputChannels` freshly
randomized filters (`Matrix.random(k²·ch, 1, -σ, σ)` with
`σ = sqrt(2/(k²·ch))`) and a `0` bias each onto the existing arrays.
`sqrtf` interprets `Math.sqrt`, `rand f p ∈ [0,1)` the draw for row `p` of
filter `f`. -/
def convInit (sqrtf : ℚ → ℚ) (rand : ℕ → ℕ → ℚ) (s : ConvState) : ConvState :=
  let σ := sqrtf (2 / ((s.kernelSize * s.kernelSize * s.inputChannels : ℕ) : ℚ))
  { s with
    filters := s.filters ++ (List.range s.outputChannels).map (fun f =>
      (List.range (s.kernelSize * s.kernelSize * s.inputChannels)).map (fun p =>
        -σ + rand f p * (σ - -σ))),
    biases := s.biases ++ List.replicate s.outputChannels 0 }

/-- Embeds `ConvolutionalLayer.applyPadding`: zero border of width `p`. -/
def convApplyPadding (p : ℕ) (input : Volume) : Volume :=
  if p = 0 then input
  else
    let hh := input.length
    let ww := (input.getD 0 []).length
    let cc := ((input.getD 0 []).getD 0 []).length
    (List.range (hh + 2 * p)).map (fun i =>
      (List.range (ww + 2 * p)).map (fun j =>
        (List.range cc).map (fun c =>
          if p ≤ i ∧ i < hh + p ∧ p ≤ j ∧ j < ww + p then
            get3 input (i - p) (j - p) c
          else 0)))

/-- Embeds `ConvolutionalLayer.extractPatch`: channels outermost, then
kernel rows, then kernel columns (`patch.push(input[row+i][col+j][c])`). -/
def convExtractPatch (k ch : ℕ) (input : Volume) (row col : ℕ) : List ℚ :=
  (List.range ch).flatMap (fun c =>
    (List.range k).flatMap (fun i =>
      (List.range k).map (fun j => get3 input (row + i) (col + j) c)))

/-- Embeds `ConvolutionalLayer.forward`: reshape each flat batch row to a
volume, apply padding, slide the kernel with the configured stride
computing `bias + Σ patch[p]·filter[p]` per output position, apply the
scalar activation (`actSem` interprets the activation type, e.g. ReLU as
`max 0`), flatten row-major `(i, j, f)`, and cache the padded inputs and
the output volumes. -/
def convForward (actSem : ActivationTypeE → ℚ → ℚ) (s : ConvState)
    (input : List (List ℚ)) : List (List ℚ) × ConvState :=
  let h := s.inputShape.getD 0 0
  let w := s.inputShape.getD 1 0
  let outH := s.outputShape.getD 0 0
  let outW := s.outputShape.getD 1 0
  let padded := input.map (fun row =>
    convApplyPadding s.padding (reshapeRowToVolume row h w s.inputChannels))
  let rows := padded.map (fun pv =>
    (List.range outH).flatMap (fun oi =>
      (List.range outW).flatMap (fun oj =>
        (List.range s.outputChannels).map (fun f =>
          let patch := convExtractPatch s.kernelSize s.inputChannels pv
            (oi * s.stride) (oj * s.stride)
          let sum := s.biases.getD f 0 +
            ∑ p ∈ Finset.range patch.length,
              patch.getD p 0 * ((s.filters.getD f []).getD p 0)
          match s.activation with
          | some t => actSem t sum
          | none => sum))))
  (rows,
    { s with
      input := some padded,
      output := some (rows.map (fun r => reshapeRowToVolume r outH outW s.outputChannels)) })

/-- A flat all-zero row of length `h·w·c`, built by the same triple loop the
source's backward uses (`flatGrad.push(0)` per `(i, j, c)`). -/
def convZeroRow (h w c : ℕ) : List ℚ :=
  (List.range h).flatMap (fun _ =>
    (List.range w).flatMap (fun _ =>
      (List.range c).map (fun _ => (0 : ℚ))))

/-- Embeds `ConvolutionalLayer.backward` of `src/neural/layers/`.  Throws a
StateError without cached `input`/`output`.  Accumulates per-filter kernel
and bias gradients from the cached padded inputs, applies
`param -= (lr/batchSize)·grad` to filters and biases — and returns, as the
input gradient, rows the source builds by pushing the constant `0`
(`// Simplificado`) for every input position. -/
def convBackward (s : ConvState) (outputGradient : List (List ℚ)) (lr : ℚ) :
    Except NNError (List (List ℚ) × ConvState) :=
  match s.input, s.output with
  | some inp, some _ =>
      let batchSize := outputGradient.length
      let h := s.inputShape.getD 0 0
      let w := s.inputShape.getD 1 0
      let outH := s.outputShape.getD 0 0
      let outW := s.outputShape.getD 1 0
      let gradVal := fun (b i j f : ℕ) =>
        get3 (reshapeRowToVolume (outputGradient.getD b []) outH outW s.outputChannels) i j f
      let patch := fun (b i j : ℕ) =>
        convExtractPatch s.kernelSize s.inputChannels (inp.getD b []) (i * s.stride) (j * s.stride)
      let filterGrad := fun (f p : ℕ) =>
        ∑ b ∈ Finset.range batchSize, ∑ i ∈ Finset.range outH, ∑ j ∈ Finset.range outW,
          (patch b i j).getD p 0 * gradVal b i j f
      let biasGrad := fun (f : ℕ) =>
        ∑ b ∈ Finset.range batchSize, ∑ i ∈ Finset.range outH, ∑ j ∈ Finset.range outW,
          gradVal b i j f
      let newFilters := s.filters.mapIdx (fun f filt =>
        if f < s.outputChannels then
          filt.mapIdx (fun p v => v - filterGrad f p * (lr / (batchSize : ℚ)))
        else filt)
      let newBiases := s.biases.mapIdx (fun f v =>
        if f < s.outputChannels then v - lr * biasGrad f / (batchSize : ℚ) else v)
      .ok ((List.range batchSize).map (fun _ => convZeroRow h w s.inputChannels),
        { s with filters := newFilters, biases := newBiases })
  | _, _ => .error .stateError

/-- Keys of the string-indexed weights map (`"weights"`, `"biases"`,
`"filter_${f}"`, `"kernel_${i}"`), embedded symbolically. -/
inductive WKey where
  | weightsKey : WKey
  | biasesKey : WKey
  | filterIdx : ℕ → WKey
  | kernelIdx : ℕ → WKey
deriving DecidableEq

/-- A `Record<string, number[][]>` weights map. -/
abbrev WeightsMap := List (WKey × List (List ℚ))

/-- Looks a key up in a weights map. -/
def wlookup (m : WeightsMap) (k : WKey) : Option (List (List ℚ)) :=
  (m.find? (fun e => e.1 == k)).map (fun e => e.2)

/-- Embeds `ConvolutionalLayer.setWeights` of `src/neural/layers/`: requires
`biases` (throws otherwise), sets `this.biases = weights.biases[0]`, and for
each `f < outputChannels` requires `filter_f` (throws otherwise) and assigns
`this.filters[f]` from its column data. -/
def convSetWeights (s : ConvState) (wmap : WeightsMap) : Except NNError ConvState :=
  match wlookup wmap .biasesKey with
  | none => .error .invalidWeights
  | some bs => do
      let fs ← (List.range s.outputChannels).mapM (fun f =>
        match wlookup wmap (.filterIdx f) with
        | some d => Except.ok (d.map (fun row => row.getD 0 0))
        | none => Except.error NNError.invalidWeights)
      Except.ok { s with
        biases := bs.getD 0 [],
        filters := fs ++ s.filters.drop s.outputChannels }

/-- Configuration record passed to `LayerFactory.create` (fields of the
`config` object the factory reads; absent optional fields are `none`). -/
structure LayerConfig where
  inputShape : List ℕ
  inputSize : ℕ
  outputSize : ℕ
  kernelSize : ℕ
  filters : ℕ
  stride : Option ℕ
  padding : Option ℕ
  activation : Option ActivationTypeE

/-- A layer instance produced by `LayerFactory.create`. -/
inductive CreatedLayer where
  | inputL : List ℕ → CreatedLayer
  | denseL : (n m : ℕ) → DenseState n m → CreatedLayer
  | convL : ConvState → CreatedLayer

/-- Embeds `LayerFactory.create`: dispatches on the layer type; dense
defaults its activation to sigmoid, convolutional to ReLU, `stride || 1`,
`padding || 0` (JavaScript `||`, so an explicit `0` stride also becomes
`1`); pooling throws. -/
def layerFactoryCreate (t : LayerTypeE) (cfg : LayerConfig) :
    Except NNError CreatedLayer :=
  match t with
  | .input => .ok (.inputL cfg.inputShape)
  | .dense => .ok (.denseL cfg.inputSize cfg.outputSize
      (denseConstruct cfg.inputSize cfg.outputSize (some (cfg.activation.getD .sigmoid))))
  | .convolutional => .ok (.convL (convConstruct cfg.inputShape cfg.kernelSize
      cfg.filters
      (match cfg.stride with | some v => if v = 0 then 1 else v | none => 1)
      (cfg.padding.getD 0)
      (some (cfg.activation.getD .relu))))
  | .pooling => .error .unsupportedOperation

/-- State of a `SequentialModel` relevant to loss selection: the layer list
and the private `useSoftmaxCrossEntropy` flag. -/
structure SeqModel where
  layers : List CreatedLayer
  useSoftmaxCrossEntropy : Bool

/-- A freshly constructed `SequentialModel` (flag starts `false`). -/
def seqModelNew : SeqModel := ⟨[], false⟩

/-- Embeds `SequentialModel.addLayer`: creates the layer via the factory,
appends it, and sets `useSoftmaxCrossEntropy = true` if the added layer is
DENSE with SOFTMAX in `config.activation` (the flag is never reset). -/
def seqAddLayer (m : SeqModel) (t : LayerTypeE) (cfg : LayerConfig) :
    Except NNError SeqModel :=
  (layerFactoryCreate t cfg).map (fun layer =>
    { layers := m.layers ++ [layer],
      useSoftmaxCrossEntropy :=
        m.useSoftmaxCrossEntropy || (t == .dense && cfg.activation == some .softmax) })

/-- The loss both `SequentialModel.train` and `SequentialModel.evaluate`
select: Cross-Entropy when `useSoftmaxCrossEntropy` is set, MSE otherwise
(the `if (this.useSoftmaxCrossEntropy)` branches). -/
def seqLossKind (m : SeqModel) : LossKind :=
  if m.useSoftmaxCrossEntropy then .crossEntropy else .mse

/-- One entry of a load payload's `layersData` array. -/
structure BLayerData (ι W : Type) where
  id : ι
  weights : Option W

/-- The `BaseModel` state `load` touches: layer instances keyed by their ids
and the `isInitialized` flag.  Layer state and weight payloads are abstract
(`L`, `W`); `setW` below stands for the virtual `setWeights`. -/
structure BModelState (ι L : Type) where
  layers : List (ι × L)
  isInitialized : Bool

/-- Recursion performed by `BaseModel.load`'s for-loop over the layer
instances: for each instance, find the `layersData` entry with matching id
and call `setWeights` when the entry exists and has `weights` (threading a
possible `setWeights` failure); instances without a match are kept
unchanged. -/
def baseModelLoadAux {ι L W : Type} [DecidableEq ι]
    (setW : L → W → Except NNError L) (lds : List (BLayerData ι W)) :
    List (ι × L) → Except NNError (List (ι × L))
  | [] => .ok []
  | sl :: rest =>
      match lds.find? (fun ld => ld.id == sl.1) with
      | some ld =>
          match ld.weights with
          | some w => do
              let l' ← setW sl.2 w
              let rest' ← baseModelLoadAux setW lds rest
              pure ((sl.1, l') :: rest')
          | none => do
              let rest' ← baseModelLoadAux setW lds rest
              pure (sl :: rest')
      | none => do
          let rest' ← baseModelLoadAux setW lds rest
          pure (sl :: rest')

/-- Embeds `BaseModel.load`: throws a ValidationError iff `layersData` is
missing or not an array (modelled by `none`); otherwise runs the per-layer
loop and finally sets `isInitialized = true`. -/
def baseModelLoad {ι L W : Type} [DecidableEq ι]
    (setW : L → W → Except NNError L) (m : BModelState ι L)
    (layersData : Option (List (BLayerData ι W))) :
    Except NNError (BModelState ι L) :=
  match layersData with
  | none => .error .validationError
  | some lds =>
      (baseModelLoadAux setW lds m.layers).map (fun ls => ⟨ls, true⟩)

/-- The clipping epsilon of `CrossEntropy.loss`: `1e-15`. -/
def ceEps : ℚ := 1 / 10 ^ 15

/-- Embeds the clip inside `CrossEntropy.loss`:
`Math.max(Math.min(p, 1 - ε), ε)`. -/
def ceClip (p : ℚ) : ℚ := max (min p (1 - ceEps)) ceEps

/-- Embeds the inner loop of `CrossEntropy.loss` for one sample:
`sampleLoss -= targets[i][j] * log(clip(predictions[i][j]))` over
`j < predictions[i].length`.  `logf` interprets `Math.log`. -/
def ceSampleLoss (logf : ℚ → ℚ) (prow trow : List ℚ) : ℚ :=
  -(∑ j ∈ Finset.range prow.length, trow.getD j 0 * logf (ceClip (prow.getD j 0)))

/-- Embeds `CrossEntropy.loss`: total of the per-sample losses, divided by
`predictions.length`. -/
def crossEntropyLoss (logf : ℚ → ℚ) (P T : List (List ℚ)) : ℚ :=
  (∑ i ∈ Finset.range P.length, ceSampleLoss logf (P.getD i []) (T.getD i [])) /
    (P.length : ℚ)

/-- Embeds `CrossEntropy.gradient`: a first pass builds
`predictions[i][j] - targets[i][j]`, a second pass divides every entry by
`predictions.length`. -/
def crossEntropyGradient (P T : List (List ℚ)) : List (List ℚ) :=
  ((List.range P.length).map (fun i =>
    (List.range (P.getD i []).length).map (fun j =>
      (P.getD i []).getD j 0 - (T.getD i []).getD j 0))).map
    (fun row => row.map (fun v => v / (P.length : ℚ)))

/-- Embeds `Math.max(...x)` over a list (the source applies it to non-empty
rows; the empty case, `-Infinity` in JavaScript, is irrelevant here). -/
def listMax : List ℚ → ℚ
  | [] => 0
  | x :: xs => xs.foldl max x

/-- Embeds `Softmax.forwardVector`: subtract the row maximum, exponentiate
(`expf` interprets `Math.exp`), normalize by the sum. -/
def softmaxForwardVector (expf : ℚ → ℚ) (x : List ℚ) : List ℚ :=
  let maxVal := listMax x
  let expValues := x.map (fun v => expf (v - maxVal))
  let sumExp := expValues.sum
  expValues.map (fun v => v / sumExp)

/-- Embeds `Softmax.forwardMatrix`: `forwardVector` on every row. -/
def softmaxForwardMatrix (expf : ℚ → ℚ) (x : List (List ℚ)) : List (List ℚ) :=
  x.map (softmaxForwardVector expf)

/-- Bit length of a natural number, with fuel so that the recursion is
structural (fuel 1200 covers every number appearing in binary64 values of
normal range). -/
def bitLen : ℕ → ℕ → ℕ
  | 0, _ => 0
  | _ + 1, 0 => 0
  | fuel + 1, n => bitLen fuel (n / 2) + 1

/-- Round a rational to the nearest integer, ties to even — the IEEE-754
default rounding.  The branch conditions are `x - ⌊x⌋ < 1/2` and
`x - ⌊x⌋ > 1/2` with denominators cleared. -/
def rne (x : ℚ) : ℤ :=
  let n : ℤ := ⌊x⌋
  if 2 * x < 2 * n + 1 then n
  else if 2 * n + 1 < 2 * x then n + 1
  else if n % 2 = 0 then n else n + 1

/-- The rational `2^z` for an integer exponent. -/
def pow2 (z : ℤ) : ℚ :=
  if 0 ≤ z then ((2 : ℚ) ^ z.toNat) else 1 / ((2 : ℚ) ^ (-z).toNat)

/-- Binary exponent of a positive rational: the greatest `e` with
`2^e ≤ q` (valid for the normal binary64 range). -/
def flExp (q : ℚ) : ℤ :=
  let a : ℤ := bitLen 1200 q.num.natAbs
  let b : ℤ := bitLen 1200 q.den
  if pow2 (a - b) ≤ q then a - b else a - b - 1

/-- Rounds a positive rational to the nearest binary64 value (53-bit
significand, round to nearest, ties to even; subnormals and overflow are
outside the range used here). -/
def flPos (q : ℚ) : ℚ :=
  rne (q * pow2 (52 - flExp q)) * pow2 (flExp q - 52)

/-- Rounds a rational to the nearest binary64 value: the value semantics of
a JavaScript `number` in the normal range. -/
def fl (q : ℚ) : ℚ :=
  if q = 0 then 0
  else if q < 0 then - flPos (-q)
  else flPos q

/-- Embeds `Matrix.add` under IEEE binary64 semantics: each element-wise sum
is rounded to the nearest double, as the JavaScript `+` does. -/
def matAddFl {r c : ℕ} (A B : Mat r c) : Mat r c := fun i j => fl (A i j + B i j)

/-- Embeds `Matrix.subtract` under IEEE binary64 semantics. -/
def matSubFl {r c : ℕ} (A B : Mat r c) : Mat r c := fun i j => fl (A i j - B i j)

/-- The adjusted gradient of `DenseLayer.backward`: incoming gradient
multiplied (hadamard) by the activation's `backwardMatrix` at the cached
output, or the incoming gradient itself when the layer has no activation. -/
def denseAdjGrad (interp : ActivationTypeE → MatActSem)
    (act : Option ActivationTypeE) {b m : ℕ} (G Y : Mat b m) : Mat b m :=
  match act with
  | some t => matHadamard G ((interp t).bwdM Y)
  | none => G

/-- Embeds `ReLU.forward`: `Math.max(0, input)`. -/
def reluForward (x : ℚ) : ℚ := max 0 x

/-- Scalar activation semantics used by the concrete convolutional layers
below: ReLU and Linear are the exact source functions; the remaining
activation types (transcendental, or vector-only in Softmax's case) are
never consulted by any concrete layer in this file. -/
def actScalarSem : ActivationTypeE → ℚ → ℚ
  | .relu => reluForward
  | .linear => fun x => x
  | .sigmoid => fun x => x
  | .tanh => fun x => x
  | .softmax => fun x => x

/-- Configuration for a 1×1×1 convolutional layer with one 1×1 filter,
passed through `LayerFactory.create` (stride, padding and activation left
to their defaults). -/
def c2cfg : LayerConfig := ⟨[1, 1, 1], 0, 0, 1, 1, none, none, none⟩

/-- The layer `LayerFactory.create` builds from `c2cfg`. -/
def c2layer : ConvState := convConstruct [1, 1, 1] 1 1 1 0 (some .relu)

/-- A weights payload installing kernel `[[1]]` and bias `0`. -/
def c2wmap : WeightsMap := [(WKey.biasesKey, [[0]]), (WKey.filterIdx 0, [[1]])]

/-- The layer after `setWeights(c2wmap)`. -/
def c2armed : ConvState := { c2layer with biases := [0], filters := [[1]] }

/-- The layer after a forward pass on the input `[[5]]`. -/
def c2trained : ConvState := (convForward actScalarSem c2armed [[5]]).2

/-- The model produced by adding one Dense+Softmax layer to a fresh
`SequentialModel`. -/
def c3model : SeqModel :=
  ⟨[.denseL 2 3 (denseConstruct 2 3 (some .softmax))], true⟩

/-- C10: for every DenseLayer on which neither `initialize` nor
`setWeights` has been called (so `weights` is still `null`), `forward`
fails with the `Layer not initialized` error instead of lazily
self-initializing. -/
theorem C10_dense_forward_uninitialized (n m : ℕ)
    (interp : ActivationTypeE → MatActSem) (s : DenseState n m) (b : ℕ)
    (X : Mat b n) (h : s.weights = none) :
    denseForward interp s X = .error .layerNotInitialized := by
  obtain ⟨act, w, bi, inp, outp⟩ := s
  simp only at h
  subst h
  cases bi <;> rfl

/-- Witness for C10: a freshly constructed dense layer. -/
theorem C10_witness :
    denseForward (fun _ => linearMatSem) (denseConstruct 1 1 (some .linear))
      (fun _ _ => (1 : ℚ) : Mat 1 1) = .error .layerNotInitialized :=
  C10_dense_forward_uninitialized 1 1 (fun _ => linearMatSem)
    (denseConstruct 1 1 (some .linear)) 1 (fun _ _ => (1 : ℚ)) rfl

/-- C4 (amended): calling `backward` before any `forward` raises a
StateError for DenseLayer and ConvolutionalLayer, but InputLayer's
`backward` performs no state check and returns the gradient unchanged. -/
theorem C4_backward_before_forward :
    (∀ (n m : ℕ) (interp : ActivationTypeE → MatActSem) (s : DenseState n m)
      (b : ℕ) (G : Mat b m) (lr : ℚ), s.input = none →
        denseBackward interp s G lr = .error .stateError)
    ∧ (∀ (s : ConvState) (g : List (List ℚ)) (lr : ℚ), s.input = none →
        convBackward s g lr = .error .stateError)
    ∧ (∀ (g : List (List ℚ)) (lr : ℚ), inputLayerBackward g lr = .ok g) := by
  refine ⟨?_, ?_, ?_⟩
  · intro n m interp s b G lr h
    obtain ⟨act, w, bi, inp, outp⟩ := s
    simp only at h
    subst h
    cases w <;> cases bi <;> cases outp <;> rfl
  · intro s g lr h
    obtain ⟨i1, o1, k1, st1, p1, c1, oc1, a1, f1, b1, inp, outp⟩ := s
    simp only at h
    subst h
    cases outp <;> rfl
  · intro g lr
    rfl

/-- Counterexample for C4 as stated: on an InputLayer with no prior
forward pass, `backward` returns the gradient as a value and does not fail
with a StateError. -/
theorem C4_counterexample :
    inputLayerBackward [[2, 3]] 1 = .ok [[2, 3]]
    ∧ inputLayerBackward [[2, 3]] 1 ≠ .error .stateError :=
  ⟨rfl, fun h => nomatch h⟩

/-- Witness for C4's amended statement: a fresh dense layer, a fresh
convolutional layer and the input layer at concrete arguments. -/
theorem C4_witness :
    denseBackward (fun _ => linearMatSem) (denseConstruct 1 1 (some .linear))
      (fun _ _ => (1 : ℚ) : Mat 1 1) 1 = .error .stateError
    ∧ convBackward (convConstruct [1, 1, 1] 1 1 1 0 (some .relu)) [[1]] 1 =
        .error .stateError
    ∧ inputLayerBackward [[1]] 1 = .ok [[1]] :=
  ⟨C4_backward_before_forward.1 1 1 (fun _ => linearMatSem)
      (denseConstruct 1 1 (some .linear)) 1 (fun _ _ => (1 : ℚ)) 1 rfl,
    C4_backward_before_forward.2.1 (convConstruct [1, 1, 1] 1 1 1 0 (some .relu))
      [[1]] 1 rfl,
    C4_backward_before_forward.2.2 [[1]] 1⟩

/-- C9 (amended): under the exact-arithmetic semantics of the `Matrix`
operations, `A.add(B).subtract(B)` equals `A` element-wise for all matrices
of the same shape; under the IEEE binary64 semantics the code actually runs
with, rounding can break the round-trip (see the counterexample). -/
theorem C9_add_subtract_roundtrip (r c : ℕ) (A B : Mat r c) :
    matSub (matAdd A B) B = A := by
  funext i j
  simp [matSub, matAdd]

lemma fl_one_tenth : fl ((1 : ℚ) / 10) = 3602879701896397 / 2 ^ 55 := by
  have hnum : ((1 : ℚ) / 10).num = 1 := by norm_num
  have hden : ((1 : ℚ) / 10).den = 10 := by norm_num
  have hexp : flExp ((1 : ℚ) / 10) = -4 := by
    rw [flExp, hnum, hden]
    norm_num [show bitLen 1200 1 = 1 from rfl, show bitLen 1200 10 = 4 from rfl,
      pow2, show Int.toNat 3 = 3 from rfl]
  have hfloor : ⌊((1 : ℚ) / 10) * pow2 56⌋ = 7205759403792793 := by
    rw [pow2]
    norm_num [Int.floor_eq_iff, show Int.toNat 56 = 56 from rfl]
  have hrne : rne (((1 : ℚ) / 10) * pow2 56) = 7205759403792794 := by
    rw [rne, hfloor, pow2]
    norm_num [show Int.toNat 56 = 56 from rfl]
  rw [fl, if_neg (by norm_num), if_neg (by norm_num), flPos, hexp,
    show (52 : ℤ) - -4 = 56 from by norm_num, hrne, pow2]
  norm_num [show Int.toNat 56 = 56 from rfl]

lemma fl_one_fifth : fl ((2 : ℚ) / 10) = 3602879701896397 / 2 ^ 54 := by
  have hq : (2 : ℚ) / 10 = 1 / 5 := by norm_num
  have hnum : ((1 : ℚ) / 5).num = 1 := by norm_num
  have hden : ((1 : ℚ) / 5).den = 5 := by norm_num
  have hexp : flExp ((1 : ℚ) / 5) = -3 := by
    rw [flExp, hnum, hden]
    norm_num [show bitLen 1200 1 = 1 from rfl, show bitLen 1200 5 = 3 from rfl,
      pow2, show Int.toNat 2 = 2 from rfl]
  have hfloor : ⌊((1 : ℚ) / 5) * pow2 55⌋ = 7205759403792793 := by
    rw [pow2]
    norm_num [Int.floor_eq_iff, show Int.toNat 55 = 55 from rfl]
  have hrne : rne (((1 : ℚ) / 5) * pow2 55) = 7205759403792794 := by
    rw [rne, hfloor, pow2]
    norm_num [show Int.toNat 55 = 55 from rfl]
  rw [hq, fl, if_neg (by norm_num), if_neg (by norm_num), flPos, hexp,
    show (52 : ℤ) - -3 = 55 from by norm_num, hrne, pow2]
  norm_num [show Int.toNat 55 = 55 from rfl]

lemma fl_sum_eval :
    fl ((3602879701896397 : ℚ) / 2 ^ 55 + 3602879701896397 / 2 ^ 54) =
      5404319552844596 / 2 ^ 54 := by
  have harg : (3602879701896397 : ℚ) / 2 ^ 55 + 3602879701896397 / 2 ^ 54 =
      10808639105689191 / 2 ^ 55 := by norm_num
  have hnum : ((10808639105689191 : ℚ) / 2 ^ 55).num = 10808639105689191 := by
    norm_num
  have hden : ((10808639105689191 : ℚ) / 2 ^ 55).den = 2 ^ 55 := by norm_num
  have hexp : flExp ((10808639105689191 : ℚ) / 2 ^ 55) = -2 := by
    rw [flExp, hnum, hden]
    norm_num [show bitLen 1200 10808639105689191 = 54 from rfl,
      show bitLen 1200 36028797018963968 = 56 from rfl, pow2,
      show Int.toNat 2 = 2 from rfl]
  have hfloor : ⌊((10808639105689191 : ℚ) / 2 ^ 55) * pow2 54⌋ =
      5404319552844595 := by
    rw [pow2]
    norm_num [Int.floor_eq_iff, show Int.toNat 54 = 54 from rfl]
  have hrne : rne (((10808639105689191 : ℚ) / 2 ^ 55) * pow2 54) =
      5404319552844596 := by
    rw [rne, hfloor, pow2]
    norm_num [show Int.toNat 54 = 54 from rfl]
  rw [harg, fl, if_neg (by norm_num), if_neg (by norm_num), flPos, hexp,
    show (52 : ℤ) - -2 = 54 from by norm_num, hrne, pow2]
  norm_num [show Int.toNat 54 = 54 from rfl]

lemma fl_diff_eval :
    fl ((5404319552844596 : ℚ) / 2 ^ 54 - 3602879701896397 / 2 ^ 54) =
      1801439850948199 / 2 ^ 54 := by
  have harg : (5404319552844596 : ℚ) / 2 ^ 54 - 3602879701896397 / 2 ^ 54 =
      1801439850948199 / 2 ^ 54 := by norm_num
  have hnum : ((1801439850948199 : ℚ) / 2 ^ 54).num = 1801439850948199 := by
    norm_num
  have hden : ((1801439850948199 : ℚ) / 2 ^ 54).den = 2 ^ 54 := by norm_num
  have hexp : flExp ((1801439850948199 : ℚ) / 2 ^ 54) = -4 := by
    rw [flExp, hnum, hden]
    norm_num [show bitLen 1200 1801439850948199 = 51 from rfl,
      show bitLen 1200 18014398509481984 = 55 from rfl, pow2,
      show Int.toNat 4 = 4 from rfl]
  have hfloor : ⌊((1801439850948199 : ℚ) / 2 ^ 54) * pow2 56⌋ =
      7205759403792796 := by
    rw [pow2]
    norm_num [Int.floor_eq_iff, show Int.toNat 56 = 56 from rfl]
  have hrne : rne (((1801439850948199 : ℚ) / 2 ^ 54) * pow2 56) =
      7205759403792796 := by
    rw [rne, hfloor, pow2]
    norm_num [show Int.toNat 56 = 56 from rfl]
  rw [harg, fl, if_neg (by norm_num), if_neg (by norm_num), flPos, hexp,
    show (52 : ℤ) - -4 = 56 from by norm_num, hrne, pow2]
  norm_num [show Int.toNat 56 = 56 from rfl]

/-- Counterexample for C9 as stated for the IEEE double semantics the spec
pins down: with `A = [[0.1]]` and `B = [[0.2]]` (each entry the binary64
value of the decimal literal), `A.add(B).subtract(B)` computed with
binary64 rounding gives `[[0.10000000000000003]] ≠ A`. -/
theorem C9_counterexample :
    matSubFl (matAddFl ((fun _ _ => fl (1 / 10)) : Mat 1 1)
        ((fun _ _ => fl (2 / 10)) : Mat 1 1)) ((fun _ _ => fl (2 / 10)) : Mat 1 1)
      ≠ ((fun _ _ => fl (1 / 10)) : Mat 1 1) := by
  intro h
  have h00 := congrFun (congrFun h 0) 0
  rw [matSubFl, matAddFl] at h00
  rw [fl_one_tenth, fl_one_fifth, fl_sum_eval, fl_diff_eval] at h00
  norm_num at h00

/-- C6 (amended): layer-level `initialize` is not idempotent.  A second
`ConvolutionalLayer.initialize` appends another `outputChannels` filters
and biases on top of the first call's (the parameter count grows), and a
second `DenseLayer.initialize` re-draws the weights and re-zeroes the
biases, discarding whatever the first call produced (the result depends
only on the second call's random draws). -/
theorem C6_init_not_idempotent :
    (∀ (s : ConvState) (sq1 sq2 : ℚ → ℚ) (r1 r2 : ℕ → ℕ → ℚ),
      (convInit sq2 r2 (convInit sq1 r1 s)).filters.length =
          s.filters.length + 2 * s.outputChannels
      ∧ (convInit sq2 r2 (convInit sq1 r1 s)).biases.length =
          s.biases.length + 2 * s.outputChannels)
    ∧ (∀ (n m : ℕ) (sq1 sq2 : ℚ → ℚ) (r1 r2 : ℕ → ℕ → ℚ) (d : DenseState n m),
      denseInit sq2 r2 (denseInit sq1 r1 d) = denseInit sq2 r2 d) := by
  constructor
  · intro s sq1 sq2 r1 r2
    constructor
    · simp [convInit]
      ring
    · simp [convInit]
      ring
  · intro n m sq1 sq2 r1 r2 d
    rfl

/-- Counterexample for C6 as stated: on a 1-filter convolutional layer, a
second `initialize` leaves two filters where the first left one, so it is
not a no-op. -/
theorem C6_counterexample :
    (convInit id (fun _ _ => 1 / 2)
        (convInit id (fun _ _ => 1 / 2)
          (convConstruct [1, 1, 1] 1 1 1 0 (some .relu)))).filters.length = 2
    ∧ (convInit id (fun _ _ => 1 / 2)
        (convConstruct [1, 1, 1] 1 1 1 0 (some .relu))).filters.length = 1
    ∧ (2 : ℕ) ≠ 1 := by
  refine ⟨rfl, rfl, by decide⟩

/-- C3 (amended): `useSoftmaxCrossEntropy` is a monotone latch, not a
record of the final layer's activation: `addLayer` sets it when the added
layer is Dense with Softmax in its config and never resets it, and
train/evaluate pick Cross-Entropy exactly when the latch is set — so a
Dense+Softmax layer anywhere in the history forces Cross-Entropy even if
later layers are not Softmax. -/
theorem C3_loss_selection (m : SeqModel) (t : LayerTypeE) (cfg : LayerConfig)
    (m' : SeqModel) (h : seqAddLayer m t cfg = .ok m') :
    m'.useSoftmaxCrossEntropy =
      (m.useSoftmaxCrossEntropy || (t == .dense && cfg.activation == some .softmax))
    ∧ (seqLossKind m' = .crossEntropy ↔ m'.useSoftmaxCrossEntropy = true) := by
  have hiff : ∀ mm : SeqModel, seqLossKind mm = .crossEntropy ↔
      mm.useSoftmaxCrossEntropy = true := by
    intro mm
    rw [seqLossKind]
    cases hb : mm.useSoftmaxCrossEntropy <;> simp [hb]
  cases t <;> simp only [seqAddLayer, layerFactoryCreate, Except.map] at h
  case input =>
    obtain rfl := (Except.ok.injEq _ _).mp h.symm
    exact ⟨rfl, hiff _⟩
  case dense =>
    obtain rfl := (Except.ok.injEq _ _).mp h.symm
    exact ⟨rfl, hiff _⟩
  case convolutional =>
    obtain rfl := (Except.ok.injEq _ _).mp h.symm
    exact ⟨rfl, hiff _⟩
  case pooling =>
    exact nomatch h

/-- Witness for C3's amended statement: adding Dense+Softmax to a fresh
model sets the latch and selects Cross-Entropy. -/
theorem C3_witness :
    c3model.useSoftmaxCrossEntropy =
      (seqModelNew.useSoftmaxCrossEntropy ||
        (LayerTypeE.dense == LayerTypeE.dense &&
          (some ActivationTypeE.softmax) == some ActivationTypeE.softmax))
    ∧ (seqLossKind c3model = .crossEntropy ↔ c3model.useSoftmaxCrossEntropy = true) :=
  C3_loss_selection seqModelNew .dense ⟨[], 2, 3, 0, 0, none, none, some .softmax⟩
    c3model rfl

/-- Counterexample for C3 as stated: adding Dense+Softmax and then
Dense+Sigmoid leaves the model on Cross-Entropy, although the final layer's
activation is not Softmax (the claim demands MSE). -/
theorem C3_counterexample :
    ((seqAddLayer seqModelNew .dense ⟨[], 2, 3, 0, 0, none, none, some .softmax⟩).bind
        (fun m => seqAddLayer m .dense ⟨[], 3, 2, 0, 0, none, none, some .sigmoid⟩)).map
        seqLossKind = .ok .crossEntropy
    ∧ LossKind.crossEntropy ≠ LossKind.mse :=
  ⟨rfl, fun h => nomatch h⟩

/-- C5 (amended): `load` fails with a ValidationError exactly when
`layersData` is missing or not an array; a layer instance whose id has no
matching `layersData` entry is silently left unchanged (not an error), and
on success the model is marked Initialized. -/
theorem C5_load_behavior :
    (∀ (ι L W : Type) (_inst : DecidableEq ι) (setW : L → W → Except NNError L)
      (m : BModelState ι L),
        baseModelLoad (W := W) setW m none = .error .validationError)
    ∧ (∀ (ι L W : Type) (_inst : DecidableEq ι) (setW : L → W → Except NNError L)
      (m : BModelState ι L) (lds : List (BLayerData ι W)),
        (∀ sl ∈ m.layers, lds.find? (fun ld => ld.id == sl.1) = none) →
        baseModelLoad setW m (some lds) = .ok ⟨m.layers, true⟩) := by
  constructor
  · intro ι L W _inst setW m
    rfl
  · intro ι L W _inst setW m lds h
    rw [baseModelLoad]
    have haux : ∀ ls : List (ι × L), (∀ sl ∈ ls, lds.find? (fun ld => ld.id == sl.1) = none) →
        baseModelLoadAux setW lds ls = .ok ls := by
      intro ls
      induction ls with
      | nil => intro _; rfl
      | cons sl rest ih =>
          intro hall
          rw [baseModelLoadAux, hall sl (by simp), ih (fun x hx => hall x (by simp [hx]))]
          rfl
    rw [haux m.layers h]
    rfl

/-- Witness for C5's amended statement: a one-layer model with a missing
payload (error) and with an empty `layersData` array (silent skip plus
Initialized). -/
theorem C5_witness :
    baseModelLoad (ι := ℕ) (L := ℕ) (W := ℕ) (fun l _ => .ok l)
        ⟨[(0, 0)], false⟩ none = .error .validationError
    ∧ baseModelLoad (ι := ℕ) (L := ℕ) (W := ℕ) (fun l _ => .ok l)
        ⟨[(0, 0)], false⟩ (some []) = .ok ⟨[(0, 0)], true⟩ :=
  ⟨C5_load_behavior.1 ℕ ℕ ℕ inferInstance (fun l _ => .ok l) ⟨[(0, 0)], false⟩,
    C5_load_behavior.2 ℕ ℕ ℕ inferInstance (fun l _ => .ok l) ⟨[(0, 0)], false⟩ []
      (by intro sl _; rfl)⟩

/-- Counterexample for C5 as stated: a model with one layer whose id has no
matching `layersData` entry loads successfully (silently skipping the
layer and marking the model Initialized) instead of failing with a
ValidationError. -/
theorem C5_counterexample :
    baseModelLoad (ι := ℕ) (L := ℕ) (W := ℕ) (fun l _ => .ok l)
        ⟨[(0, 0)], false⟩ (some []) = .ok ⟨[(0, 0)], true⟩
    ∧ baseModelLoad (ι := ℕ) (L := ℕ) (W := ℕ) (fun l _ => .ok l)
        ⟨[(0, 0)], false⟩ (some []) ≠ .error .validationError :=
  ⟨rfl, fun h => nomatch h⟩

/-- C1 (amended): for every initialized DenseLayer with a cached forward
pass, `backward` updates `weights -= lr·(inputᵀ·g)` and
`biases -= lr·columnSums(g)` (`g` the activation-adjusted gradient) and
returns `g·weightsᵀ` computed from the *post-update* weights — not from the
pre-update weights the claim states. -/
theorem C1_dense_backward_post_update (n m b : ℕ)
    (interp : ActivationTypeE → MatActSem) (act : Option ActivationTypeE)
    (W : Mat n m) (B : Mat 1 m) (X : Mat b n) (Y : Mat b m) (G : Mat b m)
    (lr : ℚ) :
    denseBackward interp ⟨act, some W, some B, some ⟨b, X⟩, some ⟨b, Y⟩⟩ G lr =
      .ok (matMulQ (denseAdjGrad interp act G Y)
          (matTranspose (matSub W (matScalarMul lr
            (matMulQ (matTranspose X) (denseAdjGrad interp act G Y))))),
        ⟨act,
          some (matSub W (matScalarMul lr
            (matMulQ (matTranspose X) (denseAdjGrad interp act G Y)))),
          some (matSub B (matScalarMul lr
            (fun _ j => ∑ i, denseAdjGrad interp act G Y i j))),
          some ⟨b, X⟩, some ⟨b, Y⟩⟩) := by
  simp only [denseBackward, dite_true]
  cases act <;> rfl

/-- Counterexample for C1 as stated: a 1×1 linear dense layer with weight
`1`, bias `0`, input `1`, gradient `1`, learning rate `1`.  The update sets
the weight to `0`, and `backward` returns `[[0]]` — the product with the
post-update weight — whereas `gradient·(pre-update weights)ᵀ = [[1]]`. -/
theorem C1_counterexample :
    ((denseForward (fun _ => linearMatSem)
        (⟨some .linear, some (fun _ _ => 1), some (fun _ _ => 0), none, none⟩ :
          DenseState 1 1) ((fun _ _ => 1) : Mat 1 1)).bind
      (fun p => denseBackward (fun _ => linearMatSem) p.2
        ((fun _ _ => 1) : Mat 1 1) 1)).map Prod.fst =
      .ok ((fun _ _ => 0) : Mat 1 1)
    ∧ ((fun _ _ => (0 : ℚ)) : Mat 1 1) ≠
        matMulQ ((fun _ _ => 1) : Mat 1 1) (matTranspose ((fun _ _ => 1) : Mat 1 1)) := by
  constructor
  · simp only [denseForward, denseBackward, Except.bind, Except.map, linearMatSem]
    norm_num
    funext i j
    simp [matMulQ, matSub, matScalarMul, matHadamard, matTranspose,
      Fin.sum_univ_one]
  · intro h
    have h00 := congrFun (congrFun h 0) 0
    simp [matMulQ, matTranspose, Fin.sum_univ_one] at h00

lemma range_flatMap_replicate (n k : ℕ) :
    (List.range n).flatMap (fun _ => List.replicate k (0 : ℚ)) =
      List.replicate (n * k) 0 := by
  induction n with
  | zero => simp
  | succ n ih =>
      rw [List.range_succ, List.flatMap_append, ih, Nat.succ_mul,
        List.replicate_add]
      simp

lemma convZeroRow_eq (h w c : ℕ) :
    convZeroRow h w c = List.replicate (h * w * c) 0 := by
  rw [convZeroRow]
  simp only [show ∀ cc : ℕ, (List.range cc).map (fun _ => (0 : ℚ)) =
      List.replicate cc 0 from fun cc => by simp [List.map_const'],
    range_flatMap_replicate]
  rw [Nat.mul_assoc]

/-- C2 (amended): for every ConvolutionalLayer of `src/neural/layers/` (the
class `LayerFactory.create` instantiates) with cached forward state,
`backward` updates filters and biases but returns an identically zero input
gradient (one all-zero row of length `h·w·channels` per batch item) — the
chain-rule contribution `gradient·kernelWeight` is never propagated to
earlier layers. -/
theorem C2_conv_backward_zero_gradient (s : ConvState) (inp outp : List Volume)
    (grad : List (List ℚ)) (lr : ℚ) (h1 : s.input = some inp)
    (h2 : s.output = some outp) :
    (convBackward s grad lr).map Prod.fst =
      .ok (List.replicate grad.length
        (List.replicate (s.inputShape.getD 0 0 * s.inputShape.getD 1 0 * s.inputChannels) 0)) := by
  obtain ⟨i1, o1, k1, st1, p1, c1, oc1, a1, f1, b1, inpF, outF⟩ := s
  simp only at h1 h2
  subst h1; subst h2
  rw [convBackward]
  simp only [Except.map]
  rw [show ∀ l : List ℕ, (List.range grad.length).map
      (fun _ => convZeroRow (i1.getD 0 0) (i1.getD 1 0) c1) =
      List.replicate grad.length (convZeroRow (i1.getD 0 0) (i1.getD 1 0) c1)
    from fun _ => by rw [List.map_const', List.length_range]]
  · rw [convZeroRow_eq]
  · exact []

/-- Witness for C2's amended statement: a concrete 1×1×1 layer with cached
state and gradient `[[2]]`. -/
theorem C2_witness :
    (convBackward
        (⟨[1, 1, 1], [1, 1, 1], 1, 1, 0, 1, 1, some .relu, [[1]], [0],
          some [], some []⟩ : ConvState) [[2]] 1).map Prod.fst =
      .ok (List.replicate 1 (List.replicate (1 * 1 * 1) 0)) :=
  C2_conv_backward_zero_gradient
    (⟨[1, 1, 1], [1, 1, 1], 1, 1, 0, 1, 1, some .relu, [[1]], [0],
      some [], some []⟩ : ConvState) [] [] [[2]] 1 rfl rfl

/-- Counterexample for C2 as stated: the factory-built 1×1×1 layer with
kernel `[[1]]`, after a forward pass on `[[5]]`, maps the nonzero output
gradient `[[2]]` to the zero input gradient `[[0]]` instead of the true
convolution input gradient (`[[2]]` here). -/
theorem C2_counterexample :
    layerFactoryCreate .convolutional c2cfg = .ok (.convL c2layer)
    ∧ convSetWeights c2layer c2wmap = .ok c2armed
    ∧ c2armed.filters = [[1]]
    ∧ ([[(2 : ℚ)]] : List (List ℚ)) ≠ [[0]]
    ∧ (convBackward c2trained [[2]] 1).map Prod.fst = .ok [[0]] := by
  refine ⟨rfl, rfl, rfl, ?_, rfl⟩
  intro h
  have h0 := List.head_eq_of_cons_eq h
  have h00 := List.head_eq_of_cons_eq h0
  norm_num at h00

lemma list_sum_map_div (l : List ℚ) (s : ℚ) :
    (l.map (fun v => v / s)).sum = l.sum / s := by
  induction l with
  | nil => simp
  | cons a t ih => simp [ih, add_div]

lemma list_sum_map_neg (l : List ℚ) :
    (l.map (fun v => -v)).sum = -l.sum := by
  induction l with
  | nil => simp
  | cons a t ih => simp [ih]; ring

/-- C8: with a positive interpretation of `Math.exp` (true of the real
exponential), every row Softmax produces — in vector or matrix form — sums
to `1` within `±1e-9` (exactly `1` in exact arithmetic) and every output
value lies in `[0, 1]`. -/
theorem C8_softmax_rows (expf : ℚ → ℚ) (hpos : ∀ q, 0 < expf q) :
    (∀ x : List ℚ, x ≠ [] →
      |(softmaxForwardVector expf x).sum - 1| ≤ 1 / 1000000000
      ∧ ∀ y ∈ softmaxForwardVector expf x, 0 ≤ y ∧ y ≤ 1)
    ∧ (∀ M : List (List ℚ), (∀ r ∈ M, r ≠ []) →
      ∀ outrow ∈ softmaxForwardMatrix expf M,
        |outrow.sum - 1| ≤ 1 / 1000000000 ∧ ∀ y ∈ outrow, 0 ≤ y ∧ y ≤ 1) := by
  have hvec : ∀ x : List ℚ, x ≠ [] →
      |(softmaxForwardVector expf x).sum - 1| ≤ 1 / 1000000000
      ∧ ∀ y ∈ softmaxForwardVector expf x, 0 ≤ y ∧ y ≤ 1 := by
    intro x hx
    have hepos : ∀ e ∈ x.map (fun v => expf (v - listMax x)), 0 < e := by
      intro e he
      obtain ⟨v, _, rfl⟩ := List.mem_map.mp he
      exact hpos _
    have hnonnil : x.map (fun v => expf (v - listMax x)) ≠ [] := by
      simpa using hx
    have hS : 0 < (x.map (fun v => expf (v - listMax x))).sum :=
      List.sum_pos _ hepos hnonnil
    have hsum : (softmaxForwardVector expf x).sum = 1 := by
      show ((x.map (fun v => expf (v - listMax x))).map
        (fun v => v / (x.map (fun v => expf (v - listMax x))).sum)).sum = 1
      rw [list_sum_map_div, div_self (ne_of_gt hS)]
    refine ⟨by rw [hsum]; norm_num, ?_⟩
    intro y hy
    have hy' : y ∈ (x.map (fun v => expf (v - listMax x))).map
        (fun v => v / (x.map (fun v => expf (v - listMax x))).sum) := hy
    obtain ⟨e, he, rfl⟩ := List.mem_map.mp hy'
    refine ⟨div_nonneg (le_of_lt (hepos e he)) (le_of_lt hS), ?_⟩
    exact (div_le_one hS).mpr
      (List.single_le_sum (fun a ha => le_of_lt (hepos a ha)) e he)
  refine ⟨hvec, ?_⟩
  intro M hM outrow hout
  obtain ⟨r, hr, rfl⟩ := List.mem_map.mp hout
  exact hvec r (hM r hr)

/-- Witness for C8: a constant positive `exp` interpretation on `[0, 1]`. -/
theorem C8_witness :
    |(softmaxForwardVector (fun _ => 1) [0, 1]).sum - 1| ≤ 1 / 1000000000
    ∧ ∀ y ∈ softmaxForwardVector (fun _ => 1) [0, 1], 0 ≤ y ∧ y ≤ 1 :=
  (C8_softmax_rows (fun _ => 1) (fun _ => one_pos)).1 [0, 1] (by simp)

lemma sum_range_getD_zipWith {α β : Type} (f : α → β → ℚ) (da : α) (db : β) :
    ∀ (xs : List α) (ys : List β), xs.length = ys.length →
      ∑ j ∈ Finset.range xs.length, f (xs.getD j da) (ys.getD j db) =
        (List.zipWith f xs ys).sum := by
  intro xs
  induction xs with
  | nil => intro ys h; simp
  | cons a t ih =>
      intro ys h
      cases ys with
      | nil => simp at h
      | cons c u =>
          rw [List.length_cons, Finset.sum_range_succ']
          simp only [List.getD_cons_succ, List.getD_cons_zero]
          rw [ih u (by simpa using h)]
          rw [List.zipWith_cons_cons, List.sum_cons]
          ring

lemma map_range_getD_zipWith {α β γ : Type} (f : α → β → γ) (da : α) (db : β) :
    ∀ (xs : List α) (ys : List β), xs.length = ys.length →
      (List.range xs.length).map (fun j => f (xs.getD j da) (ys.getD j db)) =
        List.zipWith f xs ys := by
  intro xs
  induction xs with
  | nil => intro ys h; simp
  | cons a t ih =>
      intro ys h
      cases ys with
      | nil => simp at h
      | cons c u =>
          rw [List.length_cons, List.range_succ_eq_map]
          simp only [List.map_cons, List.getD_cons_zero, List.map_map,
            List.zipWith_cons_cons]
          congr 1
          rw [← ih u (by simpa using h)]
          apply List.map_congr_left
          intro j _
          simp [Function.comp, List.getD_cons_succ]

lemma zipWith_congr_forall₂ {α β γ : Type} {R : α → β → Prop} (f g : α → β → γ) :
    ∀ (P : List α) (T : List β), List.Forall₂ R P T →
      (∀ a c, R a c → f a c = g a c) → List.zipWith f P T = List.zipWith g P T := by
  intro P T h hfg
  induction h with
  | nil => rfl
  | cons hab _ ih => simp only [List.zipWith_cons_cons, hfg _ _ hab, ih]

/-- C7: for same-shape predictions and targets, `CrossEntropy.gradient` has
entries `(predictions[i][j] - targets[i][j]) / batchSize`, and
`CrossEntropy.loss` equals
`-(1/batchSize) · Σᵢ Σⱼ targets[i][j] · log(clip(predictions[i][j], ε, 1-ε))`
with `ε = 1e-15` (for any interpretation `logf` of `Math.log`). -/
theorem C7_crossentropy_formulas (logf : ℚ → ℚ) (P T : List (List ℚ))
    (h : List.Forall₂ (fun p t => p.length = t.length) P T) :
    crossEntropyLoss logf P T =
      -(1 / (P.length : ℚ)) *
        (List.zipWith (fun prow trow =>
          (List.zipWith (fun p t => t * logf (ceClip p)) prow trow).sum) P T).sum
    ∧ crossEntropyGradient P T =
        List.zipWith (fun prow trow =>
          List.zipWith (fun p t => (p - t) / (P.length : ℚ)) prow trow) P T := by
  have hlen : P.length = T.length := h.length_eq
  constructor
  · rw [crossEntropyLoss]
    rw [sum_range_getD_zipWith (fun prow trow => ceSampleLoss logf prow trow)
      [] [] P T hlen]
    rw [zipWith_congr_forall₂ (R := fun p t : List ℚ => p.length = t.length) _
      (fun prow trow =>
        -((List.zipWith (fun p t => t * logf (ceClip p)) prow trow).sum)) P T h
      (fun a c hac => by
        rw [ceSampleLoss, sum_range_getD_zipWith
          (fun p t => t * logf (ceClip p)) 0 0 a c hac])]
    rw [show (List.zipWith (fun prow trow =>
        -((List.zipWith (fun p t => t * logf (ceClip p)) prow trow).sum)) P T) =
      (List.zipWith (fun prow trow =>
        (List.zipWith (fun p t => t * logf (ceClip p)) prow trow).sum) P T).map
        (fun v => -v) from by rw [List.map_zipWith]]
    rw [list_sum_map_neg]
    ring
  · rw [crossEntropyGradient]
    rw [map_range_getD_zipWith (fun prow trow : List ℚ =>
      (List.range prow.length).map (fun j => prow.getD j 0 - trow.getD j 0))
      [] [] P T hlen]
    rw [List.map_zipWith]
    apply zipWith_congr_forall₂ (R := fun p t : List ℚ => p.length = t.length)
      _ _ P T h
    intro a c hac
    rw [map_range_getD_zipWith (fun p t : ℚ => p - t) 0 0 a c hac,
      List.map_zipWith]

/-- Witness for C7: a one-sample batch with two classes, with the identity
interpretation of `Math.log`. -/
theorem C7_witness :
    crossEntropyLoss (fun q => q) [[(1 : ℚ)/2, 1/2]] [[1, 0]] =
      -(1 / (([[(1 : ℚ)/2, 1/2]] : List (List ℚ)).length : ℚ)) *
        (List.zipWith (fun prow trow =>
          (List.zipWith (fun p t => t * (fun q : ℚ => q) (ceClip p)) prow trow).sum)
          [[(1 : ℚ)/2, 1/2]] [[1, 0]]).sum
    ∧ crossEntropyGradient [[(1 : ℚ)/2, 1/2]] [[1, 0]] =
        List.zipWith (fun prow trow =>
          List.zipWith (fun p t =>
            (p - t) / (([[(1 : ℚ)/2, 1/2]] : List (List ℚ)).length : ℚ)) prow trow)
          [[(1 : ℚ)/2, 1/2]] [[1, 0]] :=
  C7_crossentropy_formulas (fun q => q) [[(1 : ℚ)/2, 1/2]] [[1, 0]]
    (List.Forall₂.cons rfl List.Forall₂.nil)
